import Mathlib

/-!
Verification development for the local-rag repository.

The frontend streaming client (`frontend/lib/api.ts`, `chatApi.stream`), the
chat interface reducer (`frontend/components/…`, `ChatInterface.handleSubmit`),
the settings dialog, and the frontend logger (`frontend/lib/logger.ts`) are
embedded shallowly below; JavaScript strings are modelled as `List Char`.
The backend chunker and vector index are not part of the provided sources, so
they are modelled from the specification where noted.
-/

namespace LocalRag

/-- A callback invocation recorded by the streaming client of
`chatApi.stream`: `chunk` stands for `onChunk`, `sources` for `onSources`,
`done` for `onDone` and `error` for `onError`.  `α` is the type of the
JSON value that `JSON.parse` hands to `onSources`. -/
inductive CB (α : Type) where
  | chunk (s : List Char)
  | sources (v : α)
  | done
  | error (msg : List Char)
deriving DecidableEq

/-- Result of attempting `JSON.parse` on an `error:` payload, as the client
observes it: `notJson` when parsing throws, `obj m` when parsing yields an
object whose `message` field is the string in `m` (`none` when the field is
absent or not a string). -/
inductive ErrParse where
  | notJson
  | obj (message : Option (List Char))
deriving DecidableEq

/-- The characters of the literal `"data: "` tested by `line.startsWith` in
`chatApi.stream`. -/
def dataTag : List Char := ['d', 'a', 't', 'a', ':', ' ']

/-- The characters of the literal `"sources: "`. -/
def sourcesTag : List Char := ['s', 'o', 'u', 'r', 'c', 'e', 's', ':', ' ']

/-- The characters of the literal `"error: "`. -/
def errorTag : List Char := ['e', 'r', 'r', 'o', 'r', ':', ' ']

/-- The characters of the literal `"done: "`. -/
def doneTag : List Char := ['d', 'o', 'n', 'e', ':', ' ']

/-- The characters of the literal `"Unknown error occurred"`. -/
def unknownErrorMsg : List Char :=
  ['U', 'n', 'k', 'n', 'o', 'w', 'n', ' ', 'e', 'r', 'r', 'o', 'r', ' ',
   'o', 'c', 'c', 'u', 'r', 'r', 'e', 'd']

/-- The characters of the literal `"Network error occurred"`. -/
def networkErrorMsg : List Char :=
  ['N', 'e', 't', 'w', 'o', 'r', 'k', ' ', 'e', 'r', 'r', 'o', 'r', ' ',
   'o', 'c', 'c', 'u', 'r', 'r', 'e', 'd']

/-- The characters of the literal `"AbortError"` tested in the `catch`
handler of `chatApi.stream`. -/
def abortName : List Char :=
  ['A', 'b', 'o', 'r', 't', 'E', 'r', 'r', 'o', 'r']

/-- The argument passed to `onError` for an `error:` event:
`errorData.message || "Unknown error occurred"` when `JSON.parse` succeeds
(an empty or absent `message` is falsy in JavaScript, so the fallback
string is used), and the raw payload when `JSON.parse` throws. -/
def jsErrMsg (r : ErrParse) (payload : List Char) : List Char :=
  match r with
  | .notJson => payload
  | .obj none => unknownErrorMsg
  | .obj (some m) => if m = [] then unknownErrorMsg else m

/-- The per-line dispatch of `chatApi.stream` (api.ts lines 203-223): test
the `data: `, `sources: `, `error: ` and `done: ` prefixes in source order
and produce at most one callback.  `pparse` models `JSON.parse` on
`sources:` payloads (`none` = the parse throws, in which case the source
logs and emits no callback); `eparse` models `JSON.parse` on `error:`
payloads. -/
def dispatchLine {α : Type} (pparse : List Char → Option α)
    (eparse : List Char → ErrParse) (line : List Char) : Option (CB α) :=
  if dataTag.isPrefixOf line then
    some (.chunk (line.drop 6))
  else if sourcesTag.isPrefixOf line then
    match pparse (line.drop 9) with
    | some v => some (.sources v)
    | none => none
  else if errorTag.isPrefixOf line then
    some (.error (jsErrMsg (eparse (line.drop 7)) (line.drop 7)))
  else if doneTag.isPrefixOf line then
    some .done
  else
    none

/-- JavaScript `chunk.split("\n\n")`: split a character list at every
(non-overlapping, leftmost-first) occurrence of two consecutive newline
characters. -/
def splitDNL : List Char → List (List Char)
  | [] => [[]]
  | [c] => [[c]]
  | c1 :: c2 :: rest =>
    if c1 = '\n' ∧ c2 = '\n' then
      [] :: splitDNL rest
    else
      match splitDNL (c2 :: rest) with
      | [] => [[c1]]
      | p :: ps => (c1 :: p) :: ps

/-- Whether a character list contains two consecutive newlines. -/
def hasDNL : List Char → Bool
  | [] => false
  | [_] => false
  | c1 :: c2 :: rest =>
    if c1 = '\n' ∧ c2 = '\n' then true else hasDNL (c2 :: rest)

/-- The body of the `while` loop of `chatApi.stream` applied to one decoded
network chunk: split on `"\n\n"` and dispatch every resulting line. -/
def processChunk {α : Type} (pparse : List Char → Option α)
    (eparse : List Char → ErrParse) (s : List Char) : List (CB α) :=
  (splitDNL s).filterMap (dispatchLine pparse eparse)

/-- One event of the streaming wire protocol (spec section 6): a tagged
line.  A `sources` event carries both the JSON value `v` it denotes and its
serialized payload `raw`. -/
inductive WireEvent (α : Type) where
  | data (p : List Char)
  | sources (v : α) (raw : List Char)
  | done (p : List Char)
  | error (p : List Char)

/-- The rendered line of a wire event: its tag followed by its payload. -/
def renderEvent {α : Type} : WireEvent α → List Char
  | .data p => dataTag ++ p
  | .sources _ raw => sourcesTag ++ raw
  | .done p => doneTag ++ p
  | .error p => errorTag ++ p

/-- A wire-format response body: every event rendered and followed by the
double-newline separator. -/
def bodyOf {α : Type} (es : List (WireEvent α)) : List Char :=
  (es.map (fun e => renderEvent e ++ ['\n', '\n'])).flatten

/-- A line is well framed when it contains no double newline and does not
end in a newline, so that appending the `"\n\n"` separator creates exactly
one separator occurrence. -/
def goodLine (l : List Char) : Prop :=
  hasDNL l = false ∧ l.getLast? ≠ some '\n'

/-- The payload of every `sources` event parses (under `pparse`) to the
JSON value recorded in the event. -/
def sourcesOk {α : Type} (pparse : List Char → Option α) : WireEvent α → Prop
  | .sources v raw => pparse raw = some v
  | _ => True

/-- The callback the wire protocol prescribes for one event. -/
def expectedCB {α : Type} (eparse : List Char → ErrParse) : WireEvent α → CB α
  | .data p => .chunk p
  | .sources v _ => .sources v
  | .done _ => .done
  | .error p => .error (jsErrMsg (eparse p) p)

/-- One completed `reader.read()` of the response-body stream: either a
decoded text chunk or a rejection carrying a JavaScript error's `name` and
`message`. -/
inductive ReadEv where
  | chunk (s : List Char)
  | reject (name msg : List Char)

/-- The `catch` handler of `chatApi.stream` (api.ts lines 225-229): swallow
`AbortError`, otherwise call `onError(err.message || "Network error
occurred")`. -/
def handleRejection {α : Type} (name msg : List Char) : List (CB α) :=
  if name = abortName then []
  else [.error (if msg = [] then networkErrorMsg else msg)]

/-- The callbacks one read event contributes. -/
def readCBs {α : Type} (pparse : List Char → Option α)
    (eparse : List Char → ErrParse) : ReadEv → List (CB α)
  | .chunk s => processChunk pparse eparse s
  | .reject n m => handleRejection n m

/-- The whole read loop of `chatApi.stream`: process decoded chunks in
order; the first rejection runs the `catch` handler and terminates the
promise chain, so no later read event is ever processed. -/
def runStream {α : Type} (pparse : List Char → Option α)
    (eparse : List Char → ErrParse) : List ReadEv → List (CB α)
  | [] => []
  | .chunk s :: rest => processChunk pparse eparse s ++ runStream pparse eparse rest
  | .reject n m :: _ => handleRejection n m

/-- A message held by `ChatInterface` (agent-card.tsx): the `ChatMessage`
fields plus the local `id`, `sources` and `isStreaming` fields.  `σ` is the
type of a parsed sources array. -/
structure Msg (σ : Type) where
  id : Nat
  isUser : Bool
  content : List Char
  sources : Option σ
  isStreaming : Bool
deriving DecidableEq

/-- The `onChunk` handler of `ChatInterface.handleSubmit` (agent-card.tsx
lines 206-214): map over the previous messages and append the chunk to the
content of every message whose `id` equals the streaming assistant
message's id, leaving all other messages untouched. -/
def applyChunk {σ : Type} (aid : Nat) (c : List Char) (msgs : List (Msg σ)) :
    List (Msg σ) :=
  msgs.map fun m =>
    if m.id = aid then
      ⟨m.id, m.isUser, m.content ++ c, m.sources, m.isStreaming⟩
    else m

/-- The message list after a sequence of `onChunk` deliveries, in delivery
order. -/
def applyChunks {σ : Type} (aid : Nat) (msgs : List (Msg σ))
    (cs : List (List Char)) : List (Msg σ) :=
  cs.foldl (fun s c => applyChunk aid c s) msgs

/-- Modelled from the spec: the backend chunker (spec section 4.1) is not
among the provided sources (only its configuration surface is).  `chunk`
splits `text` into segments of at most `size` characters, each segment
after the first repeating the previous segment's last `overlap` characters;
the spec constrains `0 ≤ overlap < size`.  Outside that precondition (when
`size ≤ overlap`) the recursion is cut off by returning the remaining text
as a single segment so that the function is total. -/
def chunk (text : List Char) (size overlap : Nat) : List (List Char) :=
  if text = [] then []
  else if text.length ≤ size then [text]
  else if size ≤ overlap then [text]
  else text.take size :: chunk (text.drop (size - overlap)) size overlap
termination_by text.length
decreasing_by
  simp only [List.length_drop]
  omega

/-- The inverse of the declared overlap duplication: keep the first segment
whole and strip the leading `overlap` characters from every later segment,
then concatenate. -/
def reconstruct (overlap : Nat) : List (List Char) → List Char
  | [] => []
  | c :: cs => c ++ (cs.map (fun s => s.drop overlap)).flatten

/-- Modelled from the spec: one stored entry of a per-agent `VectorIndex`
(spec section 4.3), which is not among the provided sources.  `slot` is the
stable insertion slot id (assigned as the insertion position) and `vec` the
chunk's embedding vector, modelled over the integers. -/
structure IdxEntry where
  slot : Nat
  vec : List Int
deriving DecidableEq

/-- Modelled from the spec: inner-product similarity of two vectors (the
spec leaves cosine vs. inner product to the implementation). -/
def dot (q v : List Int) : Int :=
  (List.zipWith (fun a b => a * b) q v).sum

/-- One search result: the slot id of a stored vector and its similarity
score against the query. -/
structure SRes where
  slot : Nat
  score : Int
deriving DecidableEq

/-- The result order required by the spec: strictly higher similarity
first, ties broken by insertion slot. -/
def sres_le (a b : SRes) : Prop :=
  b.score < a.score ∨ (a.score = b.score ∧ a.slot ≤ b.slot)

instance : DecidableRel sres_le := fun a b => by
  unfold sres_le
  infer_instance

instance : IsTotal SRes sres_le where
  total a b := by
    unfold sres_le
    omega

instance : IsTrans SRes sres_le where
  trans a b c hab hbc := by
    unfold sres_le at hab hbc ⊢
    omega

/-- All stored vectors of an index (given in insertion order) scored
against a query vector; the entry inserted `i`-th occupies slot `i`. -/
def scoredEntries (idx : List (List Int)) (q : List Int) : List SRes :=
  idx.enum.map fun p => ⟨p.1, dot q p.2⟩

/-- Modelled from the spec: `VectorIndex.search(q, k)` (spec section 4.3)
returns the stored vectors scored against `q`, ordered by descending
similarity with ties broken by insertion order (a stable total order, so a
sort by `sres_le`), truncated to the first `k`. -/
def search (idx : List (List Int)) (q : List Int) (k : Nat) : List SRes :=
  ((scoredEntries idx q).insertionSort sres_le).take k

/-- JavaScript `parseInt` on a settings text-input value: skip leading
spaces, read an optional sign and then leading decimal digits; `none`
models the `NaN` result when no digit is found. -/
def parseIntJs (s : String) : Option Int :=
  let cs := s.toList.dropWhile (fun c => c = ' ')
  let signed : Int × List Char :=
    match cs with
    | '-' :: r => (-1, r)
    | '+' :: r => (1, r)
    | r => (1, r)
  let ds := signed.2.takeWhile Char.isDigit
  if ds = [] then none
  else some (signed.1 * (ds.foldl (fun n c => 10 * n + ((c.toNat : Int) - 48)) 0))

/-- JavaScript `parseInt(v) || d`: `NaN` and `0` are falsy, so both fall
back to the default `d`. -/
def jsOrDefault (o : Option Int) (d : Int) : Int :=
  match o with
  | none => d
  | some n => if n = 0 then d else n

/-- The loaded backend settings the dialog compares against
(`AppSettings`), restricted to the fields `handleSave` reads. -/
structure AppSettingsM where
  chunk_size : Int
  chunk_overlap : Int
  top_k_results : Int
deriving DecidableEq

/-- The state of `SettingsDialog`: the three numeric `useState` fields and
the two API-key inputs. -/
structure DialogState where
  chunkSize : Int
  chunkOverlap : Int
  topK : Int
  openrouterKey : String
  googleKey : String
deriving DecidableEq

/-- The dialog state before any loaded settings arrive: the `useState`
initialisers `512`, `50`, `5`, `""`, `""`. -/
def initialDialogState : DialogState :=
  ⟨512, 50, 5, "", ""⟩

/-- The dialog state after the `useEffect` that copies loaded settings into
the fields and clears the key inputs. -/
def stateFromSettings (s : AppSettingsM) : DialogState :=
  ⟨s.chunk_size, s.chunk_overlap, s.top_k_results, "", ""⟩

/-- The `onChange` handler of the Chunk Size input:
`parseInt(e.target.value) || 512`. -/
def chunkSizeOnInput (s : String) : Int :=
  jsOrDefault (parseIntJs s) 512

/-- The `onChange` handler of the Chunk Overlap input:
`parseInt(e.target.value) || 0`. -/
def chunkOverlapOnInput (s : String) : Int :=
  jsOrDefault (parseIntJs s) 0

/-- The `onChange` handler of the Top-K input:
`parseInt(e.target.value) || 5`. -/
def topKOnInput (s : String) : Int :=
  jsOrDefault (parseIntJs s) 5

/-- The `min` attribute of the Chunk Overlap input. -/
def overlapInputMin : Int := 0

/-- The `max` attribute of the Chunk Overlap input: `chunkSize - 1`. -/
def overlapInputMax (st : DialogState) : Int :=
  st.chunkSize - 1

/-- One user edit of the settings dialog, carrying the raw text of the
edited input. -/
inductive DialogEvent where
  | editChunkSize (s : String)
  | editOverlap (s : String)
  | editTopK (s : String)
  | editORKey (s : String)
  | editGKey (s : String)

/-- The dialog state transition for one edit, following the `onChange`
handlers.  Typed values are stored as parsed, with no clamping to the
declared `min`/`max` attributes. -/
def applyDialogEvent (st : DialogState) : DialogEvent → DialogState
  | .editChunkSize s => ⟨chunkSizeOnInput s, st.chunkOverlap, st.topK, st.openrouterKey, st.googleKey⟩
  | .editOverlap s => ⟨st.chunkSize, chunkOverlapOnInput s, st.topK, st.openrouterKey, st.googleKey⟩
  | .editTopK s => ⟨st.chunkSize, st.chunkOverlap, topKOnInput s, st.openrouterKey, st.googleKey⟩
  | .editORKey s => ⟨st.chunkSize, st.chunkOverlap, st.topK, s, st.googleKey⟩
  | .editGKey s => ⟨st.chunkSize, st.chunkOverlap, st.topK, st.openrouterKey, s⟩

/-- JavaScript `String.prototype.trim`, as called on the API-key inputs:
remove leading and trailing whitespace. -/
def jsTrim (s : String) : String :=
  String.mk (((s.toList.dropWhile Char.isWhitespace).reverse.dropWhile
    Char.isWhitespace).reverse)

/-- The `SettingsUpdate` payload: every field optional, matching the
partial body `handleSave` builds for `PATCH /settings`. -/
structure SettingsUpdateM where
  chunk_size : Option Int
  chunk_overlap : Option Int
  top_k_results : Option Int
  openrouter_api_key : Option String
  google_api_key : Option String
deriving DecidableEq

/-- The update with no fields. -/
def emptyUpdate : SettingsUpdateM :=
  ⟨none, none, none, none, none⟩

/-- `SettingsDialog.handleSave` (part_000 lines 67-87): include each
numeric field only when it differs from the loaded setting, and each API
key only when its trimmed input is non-empty (an empty trimmed string is
falsy). -/
def buildUpdate (settings : AppSettingsM) (st : DialogState) : SettingsUpdateM :=
  ⟨if st.chunkSize = settings.chunk_size then none else some st.chunkSize,
   if st.chunkOverlap = settings.chunk_overlap then none else some st.chunkOverlap,
   if st.topK = settings.top_k_results then none else some st.topK,
   if jsTrim st.openrouterKey = "" then none else some (jsTrim st.openrouterKey),
   if jsTrim st.googleKey = "" then none else some (jsTrim st.googleKey)⟩

/-- The four log levels of `frontend/lib/logger.ts`. -/
inductive LogLevel where
  | debug
  | info
  | warn
  | error
deriving DecidableEq

/-- The numeric severity of a level (the `LOG_LEVELS` map). -/
def levelVal : LogLevel → Nat
  | .debug => 0
  | .info => 1
  | .warn => 2
  | .error => 3

/-- `Logger.shouldLog`: keep entries at or above the minimum level. -/
def shouldLog (minLevel lvl : LogLevel) : Bool :=
  levelVal minLevel ≤ levelVal lvl

/-- A stored log entry (level and message; the timestamp and structured
data play no role in the buffer bound). -/
structure LogEntryM where
  level : LogLevel
  message : String
deriving DecidableEq

/-- The logger's mutable state: the configured minimum level and the local
`logs` array. -/
structure LoggerState where
  minLevel : LogLevel
  logs : List LogEntryM
deriving DecidableEq

/-- The `maxLocalLogs` bound of the logger. -/
def maxLocalLogs : Nat := 1000

/-- The retention step of `Logger.log`: after a push, drop the oldest entry
when the array exceeds `maxLocalLogs` (the `this.logs.shift()` call). -/
def evictOld (l : List LogEntryM) : List LogEntryM :=
  if maxLocalLogs < l.length then l.drop 1 else l

/-- `Logger.log` for one call: do nothing below the minimum level,
otherwise push the entry and apply the retention step. -/
def logStep (st : LoggerState) (lvl : LogLevel) (msg : String) : LoggerState :=
  if shouldLog st.minLevel lvl then
    ⟨st.minLevel, evictOld (st.logs ++ [⟨lvl, msg⟩])⟩
  else st

/-- The logger state after a sequence of `debug`/`info`/`warn`/`error`
calls, applied in order. -/
def runLogger (st : LoggerState) (calls : List (LogLevel × String)) : LoggerState :=
  calls.foldl (fun s c => logStep s c.1 c.2) st

/-- The entries a call sequence actually inserts: the calls at or above the
minimum level, in order. -/
def insertedEntries (minLevel : LogLevel) (calls : List (LogLevel × String)) :
    List LogEntryM :=
  calls.filterMap fun c =>
    if shouldLog minLevel c.1 then some ⟨c.1, c.2⟩ else none

/-- The last `n` elements of a list, in order. -/
def lastN (n : Nat) (l : List LogEntryM) : List LogEntryM :=
  l.drop (l.length - n)

/-- The logger as constructed: minimum level `info`, empty buffer. -/
def loggerInit : LoggerState :=
  ⟨.info, []⟩

/-- A sample `JSON.parse` oracle for `sources:` payloads, used to
instantiate the streaming theorems on concrete inputs: the payload `[]`
parses to the value `7`, everything else throws. -/
def pparse0 : List Char → Option Nat :=
  fun s => if s = ['[', ']'] then some 7 else none

/-- A sample `JSON.parse` oracle for `error:` payloads on which every
payload throws. -/
def eparse0 : List Char → ErrParse :=
  fun _ => .notJson

/-- The characters of the error payload consisting of the JSON object
whose `message` field is the empty string. -/
def errPayload0 : List Char := "\x7b\"message\": \"\"\x7d".toList

/-- A `JSON.parse` oracle for `error:` payloads agreeing with JavaScript
`JSON.parse` on the inputs it is used at: `errPayload0` parses to an
object whose `message` field is the empty string, everything else
throws. -/
def eparseDemo : List Char → ErrParse :=
  fun s => if s = errPayload0 then .obj (some []) else .notJson

/-- A sample list of wire events used to instantiate the streaming
theorems on concrete inputs. -/
def es0 : List (WireEvent Nat) :=
  [.data ['H', 'i'], .sources 7 ['[', ']'], .done ['x']]

section WireLemmas

/-- A list is a `isPrefixOf` of itself extended by anything. -/
theorem isPrefixOf_append_self (t p : List Char) :
    t.isPrefixOf (t ++ p) = true := by
  rw [List.isPrefixOf_iff_prefix]
  exact List.prefix_append t p

/-- When neither of two lists is a prefix of the other, the first is not a
prefix of any extension of the second. -/
theorem isPrefixOf_append_false (t1 t2 p : List Char)
    (h1 : t1.isPrefixOf t2 = false) (h2 : t2.isPrefixOf t1 = false) :
    t1.isPrefixOf (t2 ++ p) = false := by
  rw [← Bool.not_eq_true, List.isPrefixOf_iff_prefix]
  intro hpre
  rcases le_or_lt t1.length t2.length with hle | hlt
  · rw [List.prefix_iff_eq_take, List.take_append_eq_append_take,
      Nat.sub_eq_zero_of_le hle] at hpre
    simp only [List.take_zero, List.append_nil] at hpre
    have h3 := List.prefix_iff_eq_take.mpr hpre
    rw [← List.isPrefixOf_iff_prefix] at h3
    rw [h1] at h3
    exact Bool.false_ne_true h3
  · rw [List.prefix_iff_eq_take, List.take_append_eq_append_take,
      List.take_of_length_le (le_of_lt hlt)] at hpre
    have h3 : t2 <+: t1 := ⟨_, hpre.symm⟩
    rw [← List.isPrefixOf_iff_prefix] at h3
    rw [h2] at h3
    exact Bool.false_ne_true h3

/-- The empty line produced by the trailing separator dispatches no
callback. -/
theorem dispatchLine_nil {α : Type} (pparse : List Char → Option α)
    (eparse : List Char → ErrParse) :
    dispatchLine pparse eparse [] = none := rfl

/-- Dispatching the rendered line of a well-parsing wire event produces
exactly the expected callback. -/
theorem dispatchLine_render {α : Type} (pparse : List Char → Option α)
    (eparse : List Char → ErrParse) (e : WireEvent α)
    (hs : sourcesOk pparse e) :
    dispatchLine pparse eparse (renderEvent e) = some (expectedCB eparse e) := by
  cases e with
  | data p =>
    simp only [renderEvent, dispatchLine, expectedCB, isPrefixOf_append_self,
      if_true]
    rw [show (dataTag ++ p).drop 6 = p from rfl]
  | sources v raw =>
    have hx : dataTag.isPrefixOf (sourcesTag ++ raw) = false :=
      isPrefixOf_append_false _ _ _ (by decide) (by decide)
    simp only [renderEvent, dispatchLine, expectedCB, hx,
      isPrefixOf_append_self, Bool.false_eq_true, if_false, if_true]
    rw [show (sourcesTag ++ raw).drop 9 = raw from rfl]
    simp only [sourcesOk] at hs
    rw [hs]
  | done p =>
    have hx1 : dataTag.isPrefixOf (doneTag ++ p) = false :=
      isPrefixOf_append_false _ _ _ (by decide) (by decide)
    have hx2 : sourcesTag.isPrefixOf (doneTag ++ p) = false :=
      isPrefixOf_append_false _ _ _ (by decide) (by decide)
    have hx3 : errorTag.isPrefixOf (doneTag ++ p) = false :=
      isPrefixOf_append_false _ _ _ (by decide) (by decide)
    simp only [renderEvent, dispatchLine, expectedCB, hx1, hx2, hx3,
      isPrefixOf_append_self, Bool.false_eq_true, if_false, if_true]
  | error p =>
    have hx1 : dataTag.isPrefixOf (errorTag ++ p) = false :=
      isPrefixOf_append_false _ _ _ (by decide) (by decide)
    have hx2 : sourcesTag.isPrefixOf (errorTag ++ p) = false :=
      isPrefixOf_append_false _ _ _ (by decide) (by decide)
    simp only [renderEvent, dispatchLine, expectedCB, hx1, hx2,
      isPrefixOf_append_self, Bool.false_eq_true, if_false, if_true]
    rw [show (errorTag ++ p).drop 7 = p from rfl]

/-- Splitting at a separator occurrence directly after a well-framed
segment cuts exactly there. -/
theorem splitDNL_sep (p rest : List Char) (h1 : hasDNL p = false)
    (h2 : p.getLast? ≠ some '\n') :
    splitDNL (p ++ '\n' :: '\n' :: rest) = p :: splitDNL rest := by
  match p with
  | [] =>
    rw [List.nil_append, splitDNL]
    simp
  | [c] =>
    have hc : ¬(c = '\n') := by
      intro hcc
      exact h2 (by simp [hcc])
    rw [List.cons_append, List.nil_append, splitDNL]
    rw [if_neg (by simp [hc])]
    rw [show splitDNL ('\n' :: '\n' :: rest) = [] :: splitDNL rest from by
      rw [splitDNL]; simp]
  | c1 :: c2 :: p' =>
    have hcond : ¬(c1 = '\n' ∧ c2 = '\n') := by
      intro hcc
      rw [hasDNL, if_pos hcc] at h1
      exact absurd h1 (by decide)
    have h1' : hasDNL (c2 :: p') = false := by
      rw [hasDNL, if_neg hcond] at h1
      exact h1
    have h2' : (c2 :: p').getLast? ≠ some '\n' := by
      rw [List.getLast?_cons_cons] at h2
      exact h2
    rw [List.cons_append, List.cons_append, splitDNL]
    rw [if_neg hcond]
    rw [show c2 :: (p' ++ '\n' :: '\n' :: rest) = (c2 :: p') ++ '\n' :: '\n' :: rest from rfl]
    rw [splitDNL_sep (c2 :: p') rest h1' h2']
termination_by p.length

/-- Splitting a wire-format body on the double-newline separator recovers
exactly the rendered event lines, plus the empty trailing line. -/
theorem splitDNL_bodyOf {α : Type} (es : List (WireEvent α))
    (h : ∀ e ∈ es, goodLine (renderEvent e)) :
    splitDNL (bodyOf es) = es.map renderEvent ++ [[]] := by
  induction es with
  | nil =>
    rw [bodyOf]
    simp only [List.map_nil, List.flatten_nil, List.nil_append]
    rw [splitDNL]
  | cons e es ih =>
    have hg := h e (List.mem_cons_self e es)
    have hb : bodyOf (e :: es) = renderEvent e ++ '\n' :: '\n' :: bodyOf es := by
      rw [bodyOf, List.map_cons, List.flatten_cons, List.append_assoc]
      rfl
    rw [hb, splitDNL_sep _ _ hg.1 hg.2, ih (fun x hx => h x (List.mem_cons_of_mem e hx))]
    rfl

/-- Dispatching the rendered lines of well-parsing events yields exactly
the expected callbacks, in order. -/
theorem filterMap_dispatch_map {α : Type} (pparse : List Char → Option α)
    (eparse : List Char → ErrParse) (es : List (WireEvent α))
    (hs : ∀ e ∈ es, sourcesOk pparse e) :
    (es.map renderEvent).filterMap (dispatchLine pparse eparse)
      = es.map (expectedCB eparse) := by
  induction es with
  | nil => rfl
  | cons e es ih =>
    rw [List.map_cons, List.filterMap_cons,
      dispatchLine_render pparse eparse e (hs e (List.mem_cons_self e es)),
      ih (fun x hx => hs x (List.mem_cons_of_mem e hx)), List.map_cons]

end WireLemmas

/-- Claim C1: for every streaming response body made of wire-format events
(tagged lines separated by double newlines, each line free of internal
double newlines and not ending in a newline, and every `sources:` payload
parsing successfully), the client loop of `chatApi.stream` dispatches
exactly one callback per event, in the order the events appear in the
body: `onChunk` with exactly the text after the 6-character prefix
`data: `, `onSources` with the JSON-parsed value of each `sources: `
event, and `onDone` for each `done: ` event. -/
theorem stream_dispatch_per_event {α : Type} (pparse : List Char → Option α)
    (eparse : List Char → ErrParse) (es : List (WireEvent α))
    (hgood : ∀ e ∈ es, goodLine (renderEvent e))
    (hsrc : ∀ e ∈ es, sourcesOk pparse e) :
    processChunk pparse eparse (bodyOf es) = es.map (expectedCB eparse) := by
  rw [processChunk, splitDNL_bodyOf es hgood, List.filterMap_append,
    filterMap_dispatch_map pparse eparse es hsrc]
  simp [dispatchLine_nil]

/-- Witness for C1: the body holding the events `data: Hi`, `sources: []`
and `done: x` dispatches exactly the three matching callbacks in order. -/
theorem stream_dispatch_per_event_witness :
    processChunk pparse0 eparse0 (bodyOf es0) = es0.map (expectedCB eparse0) :=
  stream_dispatch_per_event pparse0 eparse0 es0
    (by
      intro e he
      simp only [es0, List.mem_cons, List.not_mem_nil, or_false] at he
      rcases he with h | h | h <;> subst h <;> exact ⟨by decide, by decide⟩)
    (by
      intro e he
      simp only [es0, List.mem_cons, List.not_mem_nil, or_false] at he
      rcases he with h | h | h <;> subst h <;> simp [sourcesOk, pparse0])

/-- Claim C2 counterexample: processing the stream event `error: P` where
`P` is the JSON object whose `message` field is the empty string (a string,
so the claim prescribes `onError` with that empty value), the client
instead invokes `onError` with the fallback text `Unknown error occurred`,
because an empty string is falsy in `errorData.message || …`. -/
theorem error_event_empty_message_cex :
    dispatchLine pparse0 eparseDemo (errorTag ++ errPayload0)
      = some (.error unknownErrorMsg) ∧
    unknownErrorMsg ≠ ([] : List Char) := by
  constructor
  · decide
  · decide

/-- Claim C2 (amended): for every stream event `error: P`, the client
invokes `onError` exactly once and never `onDone`: with the value of the
`message` field when `P` parses as a JSON object whose `message` is a
non-empty string, with `Unknown error occurred` when the parsed `message`
is empty or absent, and with `P` verbatim when `P` is not valid JSON. -/
theorem error_event_dispatch {α : Type} (pparse : List Char → Option α)
    (eparse : List Char → ErrParse) (p : List Char) :
    dispatchLine pparse eparse (errorTag ++ p)
      = some (.error (jsErrMsg (eparse p) p)) ∧
    (eparse p = .notJson → jsErrMsg (eparse p) p = p) ∧
    (∀ m, eparse p = .obj (some m) → m ≠ [] → jsErrMsg (eparse p) p = m) ∧
    (∀ m, eparse p = .obj (some m) → m = [] →
      jsErrMsg (eparse p) p = unknownErrorMsg) ∧
    (eparse p = .obj none → jsErrMsg (eparse p) p = unknownErrorMsg) ∧
    (∀ cb, dispatchLine pparse eparse (errorTag ++ p) = some cb →
      cb ≠ CB.done) := by
  have hx1 : dataTag.isPrefixOf (errorTag ++ p) = false :=
    isPrefixOf_append_false _ _ _ (by decide) (by decide)
  have hx2 : sourcesTag.isPrefixOf (errorTag ++ p) = false :=
    isPrefixOf_append_false _ _ _ (by decide) (by decide)
  have hmain : dispatchLine pparse eparse (errorTag ++ p)
      = some (.error (jsErrMsg (eparse p) p)) := by
    simp only [dispatchLine, hx1, hx2, isPrefixOf_append_self,
      Bool.false_eq_true, if_false, if_true]
    rw [show (errorTag ++ p).drop 7 = p from rfl]
  refine ⟨hmain, ?_, ?_, ?_, ?_, ?_⟩
  · intro h; rw [h, jsErrMsg]
  · intro m h hm; rw [h, jsErrMsg, if_neg hm]
  · intro m h hm; rw [h, jsErrMsg, if_pos hm]
  · intro h; rw [h, jsErrMsg]
  · intro cb hcb
    rw [hmain] at hcb
    intro hdone
    rw [hdone] at hcb
    exact CB.noConfusion (Option.some.inj hcb)

/-- Witness for the amended C2: instantiated at the empty-message payload
under the sample parse oracles. -/
theorem error_event_dispatch_witness :
    dispatchLine pparse0 eparseDemo (errorTag ++ errPayload0)
      = some (.error (jsErrMsg (eparseDemo errPayload0) errPayload0)) ∧
    (eparseDemo errPayload0 = .notJson →
      jsErrMsg (eparseDemo errPayload0) errPayload0 = errPayload0) ∧
    (∀ m, eparseDemo errPayload0 = .obj (some m) → m ≠ [] →
      jsErrMsg (eparseDemo errPayload0) errPayload0 = m) ∧
    (∀ m, eparseDemo errPayload0 = .obj (some m) → m = [] →
      jsErrMsg (eparseDemo errPayload0) errPayload0 = unknownErrorMsg) ∧
    (eparseDemo errPayload0 = .obj none →
      jsErrMsg (eparseDemo errPayload0) errPayload0 = unknownErrorMsg) ∧
    (∀ cb, dispatchLine pparse0 eparseDemo (errorTag ++ errPayload0) = some cb →
      cb ≠ CB.done) :=
  error_event_dispatch pparse0 eparseDemo errPayload0

/-- Claim C6 counterexample: a non-abort fetch rejection whose error
message is empty invokes `onError` with the fallback text `Network error
occurred`, not with the error's (empty) message, because of
`err.message || "Network error occurred"`. -/
theorem stream_rejection_empty_message_cex :
    runStream pparse0 eparse0 [ReadEv.reject ['T'] []]
      = [.error networkErrorMsg] ∧
    networkErrorMsg ≠ ([] : List Char) := by
  constructor
  · decide
  · decide

/-- Claim C6 (amended): once the canceller aborts the stream, the pending
read rejects with an error named `AbortError`; from that point no
`onChunk`, `onSources`, `onDone` or `onError` callback is ever invoked
again — the emitted callbacks are exactly those of the chunks read before
the abort.  Every rejection with any other name invokes `onError` once,
with the error's message when it is non-empty and with `Network error
occurred` when it is empty. -/
theorem stream_cancellation {α : Type} (pparse : List Char → Option α)
    (eparse : List Char → ErrParse) (pre : List (List Char))
    (n m : List Char) (post : List ReadEv) :
    (runStream pparse eparse
        (pre.map ReadEv.chunk ++ ReadEv.reject abortName m :: post)
      = (pre.map (processChunk pparse eparse)).flatten) ∧
    (n ≠ abortName →
      runStream pparse eparse
          (pre.map ReadEv.chunk ++ ReadEv.reject n m :: post)
        = (pre.map (processChunk pparse eparse)).flatten ++
          [.error (if m = [] then networkErrorMsg else m)]) := by
  induction pre with
  | nil =>
    constructor
    · rw [List.map_nil, List.nil_append, runStream, handleRejection,
        if_pos rfl]
      rfl
    · intro hn
      rw [List.map_nil, List.nil_append, runStream, handleRejection,
        if_neg hn]
      rfl
  | cons s pre ih =>
    constructor
    · rw [List.map_cons, List.cons_append, runStream, ih.1, List.map_cons,
        List.flatten_cons]
    · intro hn
      rw [List.map_cons, List.cons_append, runStream, ih.2 hn,
        List.map_cons, List.flatten_cons, List.append_assoc]

/-- Witness for the amended C6: one data chunk followed by an abort
rejection relays only the chunk's callback; the same chunk followed by a
`TypeError` rejection with message `boom` additionally reports the
message. -/
theorem stream_cancellation_witness :
    (runStream pparse0 eparse0
        ([['d', 'a', 't', 'a', ':', ' ', 'H', 'i', '\n', '\n']].map ReadEv.chunk
          ++ ReadEv.reject abortName ['x'] :: [ReadEv.chunk ['d', 'o', 'n', 'e', ':', ' ', 'x', '\n', '\n']])
      = ([[['d', 'a', 't', 'a', ':', ' ', 'H', 'i', '\n', '\n']]].flatten.map
          (processChunk pparse0 eparse0)).flatten) ∧
    (['T', 'y', 'p', 'e'] ≠ abortName →
      runStream pparse0 eparse0
          ([['d', 'a', 't', 'a', ':', ' ', 'H', 'i', '\n', '\n']].map ReadEv.chunk
            ++ ReadEv.reject ['T', 'y', 'p', 'e'] ['b', 'o', 'o', 'm']
              :: [ReadEv.chunk ['d', 'o', 'n', 'e', ':', ' ', 'x', '\n', '\n']])
        = ([[['d', 'a', 't', 'a', ':', ' ', 'H', 'i', '\n', '\n']]].flatten.map
            (processChunk pparse0 eparse0)).flatten ++
          [.error (if (['b', 'o', 'o', 'm'] : List Char) = [] then networkErrorMsg
            else ['b', 'o', 'o', 'm'])]) := by
  have h := stream_cancellation pparse0 eparse0
    [['d', 'a', 't', 'a', ':', ' ', 'H', 'i', '\n', '\n']]
    ['T', 'y', 'p', 'e'] ['b', 'o', 'o', 'm']
    [ReadEv.chunk ['d', 'o', 'n', 'e', ':', ' ', 'x', '\n', '\n']]
  constructor
  · have h1 := (stream_cancellation pparse0 eparse0
      [['d', 'a', 't', 'a', ':', ' ', 'H', 'i', '\n', '\n']]
      ['T', 'y', 'p', 'e'] ['x']
      [ReadEv.chunk ['d', 'o', 'n', 'e', ':', ' ', 'x', '\n', '\n']]).1
    simpa using h1
  · intro hn
    simpa using h.2 hn

/-- Claim C3: for every sequence of content-delta callbacks delivered for
one assistant turn, the `onChunk` reducer of `ChatInterface.handleSubmit`
leaves every message whose id differs from the streaming assistant
message's id untouched and extends the content of every message carrying
that id by exactly the concatenation of the chunks in delivery order (for
the freshly created assistant message, whose content starts empty, the
content is exactly that concatenation). -/
theorem chat_stream_accumulates {σ : Type} (aid : Nat) (msgs : List (Msg σ))
    (cs : List (List Char)) :
    applyChunks aid msgs cs = msgs.map (fun m =>
      if m.id = aid then
        ⟨m.id, m.isUser, m.content ++ cs.flatten, m.sources, m.isStreaming⟩
      else m) := by
  induction cs generalizing msgs with
  | nil =>
    have hfun : (fun (m : Msg σ) =>
        if m.id = aid then
          (⟨m.id, m.isUser, m.content ++ List.flatten [], m.sources,
            m.isStreaming⟩ : Msg σ)
        else m) = fun m => m := by
      funext m
      simp only [List.flatten_nil, List.append_nil]
      split <;> rfl
    rw [applyChunks, List.foldl_nil, hfun, List.map_id']
  | cons c cs ih =>
    have hstep : applyChunks aid msgs (c :: cs)
        = applyChunks aid (applyChunk aid c msgs) cs := rfl
    rw [hstep, ih, applyChunk, List.map_map]
    congr 1
    funext m
    by_cases h : m.id = aid
    · simp only [Function.comp, h, if_true]
      simp [List.flatten_cons, List.append_assoc]
    · simp only [Function.comp]
      rw [if_neg h, if_neg h]
      try rw [if_neg h]
      try exact (if_neg h).symm

/-- Stripping the leading `overlap` characters from every segment of a
chunking (the first included) and concatenating yields the input minus its
first `overlap` characters. -/
theorem chunk_drop_flatten (size overlap : Nat) (hov : overlap < size)
    (text : List Char) :
    ((chunk text size overlap).map (fun s => s.drop overlap)).flatten
      = text.drop overlap := by
  by_cases h0 : text = []
  · subst h0
    have hc : chunk [] size overlap = [] := by
      unfold chunk
      simp
    rw [hc]
    simp
  · by_cases h1 : text.length ≤ size
    · have hc : chunk text size overlap = [text] := by
        unfold chunk
        rw [if_neg h0, if_pos h1]
      rw [hc]
      simp
    · have h2 : ¬size ≤ overlap := by omega
      have hc : chunk text size overlap
          = text.take size :: chunk (text.drop (size - overlap)) size overlap := by
        conv_lhs => rw [chunk]
        rw [if_neg h0, if_neg h1, if_neg h2]
      rw [hc, List.map_cons, List.flatten_cons,
        chunk_drop_flatten size overlap hov (text.drop (size - overlap)),
        List.drop_drop, List.drop_take]
      have h3 : size - overlap + overlap = size := by omega
      have h4 : text.drop size = (text.drop overlap).drop (size - overlap) := by
        rw [List.drop_drop]
        congr 1
        omega
      rw [h3, h4, List.take_append_drop]
termination_by text.length
decreasing_by
  simp only [List.length_drop]
  omega

/-- Claim C4: for every text and parameters with `overlap < size`, the
segments of `chunk text size overlap`, concatenated after removing the
leading `overlap` characters that each segment after the first repeats
from its predecessor, reconstruct the text exactly; `chunk` returns at
least one segment for non-empty input and zero segments for empty
input. -/
theorem chunk_roundtrip (text : List Char) (size overlap : Nat)
    (hov : overlap < size) :
    reconstruct overlap (chunk text size overlap) = text ∧
    (text ≠ [] → chunk text size overlap ≠ []) ∧
    chunk [] size overlap = [] := by
  refine ⟨?_, ?_, by unfold chunk; simp⟩
  · by_cases h0 : text = []
    · subst h0
      have hc : chunk [] size overlap = [] := by
        unfold chunk
        simp
      rw [hc]
      rfl
    · by_cases h1 : text.length ≤ size
      · have hc : chunk text size overlap = [text] := by
          unfold chunk
          rw [if_neg h0, if_pos h1]
        rw [hc, reconstruct]
        simp
      · have h2 : ¬size ≤ overlap := by omega
        have hc : chunk text size overlap
            = text.take size :: chunk (text.drop (size - overlap)) size overlap := by
          conv_lhs => rw [chunk]
          rw [if_neg h0, if_neg h1, if_neg h2]
        rw [hc, reconstruct,
          chunk_drop_flatten size overlap hov (text.drop (size - overlap)),
          List.drop_drop]
        have h3 : size - overlap + overlap = size := by omega
        rw [h3, List.take_append_drop]
  · intro h0
    unfold chunk
    rw [if_neg h0]
    split
    · simp
    · split <;> simp

/-- Witness for C4: chunking the three-character text `abc` with size 2
and overlap 1. -/
theorem chunk_roundtrip_witness :
    reconstruct 1 (chunk ['a', 'b', 'c'] 2 1) = ['a', 'b', 'c'] ∧
    (['a', 'b', 'c'] ≠ ([] : List Char) → chunk ['a', 'b', 'c'] 2 1 ≠ []) ∧
    chunk [] 2 1 = [] :=
  chunk_roundtrip ['a', 'b', 'c'] 2 1 (by decide)

/-- Claim C5: for every index state, query and `k`, `search` returns at
most `k` results, ordered by descending similarity with ties broken by
insertion slot; every result is one of the scored stored entries; when the
index holds at most `k` vectors the result is a permutation of all of
them; and the empty index yields the empty sequence rather than an
error. -/
theorem search_topk (idx : List (List Int)) (q : List Int) (k : Nat) :
    (search idx q k).length ≤ k ∧
    List.Sorted sres_le (search idx q k) ∧
    (∀ r ∈ search idx q k, r ∈ scoredEntries idx q) ∧
    (idx.length ≤ k → List.Perm (search idx q k) (scoredEntries idx q)) ∧
    (idx = [] → search idx q k = []) := by
  refine ⟨?_, ?_, ?_, ?_, ?_⟩
  · rw [search]
    simp only [List.length_take]
    exact Nat.min_le_left _ _
  · exact List.Pairwise.sublist (List.take_sublist _ _)
      (List.sorted_insertionSort sres_le (scoredEntries idx q))
  · intro r hr
    have hr2 : r ∈ (scoredEntries idx q).insertionSort sres_le :=
      List.take_subset _ _ hr
    exact (List.perm_insertionSort sres_le (scoredEntries idx q)).subset hr2
  · intro hk
    rw [search, List.take_of_length_le]
    · exact List.perm_insertionSort sres_le (scoredEntries idx q)
    · rw [(List.perm_insertionSort sres_le (scoredEntries idx q)).length_eq]
      rw [scoredEntries, List.length_map, List.enum_length]
      exact hk
  · intro h
    subst h
    simp [search, scoredEntries]

/-- Witness for C5: a two-vector index queried with `k = 5`. -/
theorem search_topk_witness :
    (search [[1], [2]] [1] 5).length ≤ 5 ∧
    List.Sorted sres_le (search [[1], [2]] [1] 5) ∧
    (∀ r ∈ search [[1], [2]] [1] 5, r ∈ scoredEntries [[1], [2]] [1]) ∧
    (([[1], [2]] : List (List Int)).length ≤ 5 →
      List.Perm (search [[1], [2]] [1] 5) (scoredEntries [[1], [2]] [1])) ∧
    (([[1], [2]] : List (List Int)) = [] → search [[1], [2]] [1] 5 = []) :=
  search_topk [[1], [2]] [1] 5

/-- Claim C7 counterexample: on the unparsable input `abc`, the chunk
overlap field becomes `0`, not its default `50`, because its `onChange`
handler is `parseInt(v) || 0`. -/
theorem overlap_fallback_cex :
    chunkOverlapOnInput "abc" = 0 ∧ (0 : Int) ≠ 50 := by
  constructor
  · decide
  · decide

/-- Claim C7 (amended): the settings dialog initialises its fields to
chunkSize 512, chunkOverlap 50 and topK 5 before any loaded settings
arrive; on unparsable input the chunkSize field falls back to 512 and the
topK field to 5, but the chunkOverlap field falls back to 0 rather than
50. -/
theorem settings_defaults (s : String) (h : parseIntJs s = none) :
    initialDialogState.chunkSize = 512 ∧
    initialDialogState.chunkOverlap = 50 ∧
    initialDialogState.topK = 5 ∧
    chunkSizeOnInput s = 512 ∧
    chunkOverlapOnInput s = 0 ∧
    topKOnInput s = 5 := by
  refine ⟨rfl, rfl, rfl, ?_, ?_, ?_⟩ <;>
    simp [chunkSizeOnInput, chunkOverlapOnInput, topKOnInput, jsOrDefault, h]

/-- Witness for the amended C7: the input `abc` has no leading digits. -/
theorem settings_defaults_witness :
    initialDialogState.chunkSize = 512 ∧
    initialDialogState.chunkOverlap = 50 ∧
    initialDialogState.topK = 5 ∧
    chunkSizeOnInput "abc" = 512 ∧
    chunkOverlapOnInput "abc" = 0 ∧
    topKOnInput "abc" = 5 :=
  settings_defaults "abc" (by decide)

/-- Claim C8 counterexample: after loading the default settings and typing
`600` into the overlap input while chunkSize is 512, saving submits
`chunk_overlap = 600`, which violates `overlap < chunkSize`; the declared
`min`/`max` attributes do not clamp typed values. -/
theorem overlap_unclamped_cex :
    (buildUpdate ⟨512, 50, 5⟩
        (applyDialogEvent (stateFromSettings ⟨512, 50, 5⟩)
          (.editOverlap "600"))).chunk_overlap = some 600 ∧
    ¬((600 : Int) < 512) := by
  constructor
  · decide
  · decide

/-- Claim C8 (amended): the overlap input declares the attributes `min 0`
and `max (chunkSize - 1)` and a non-numeric entry becomes 0, but an edit
stores the parsed value without clamping to those attributes, so the
submitted overlap value is not guaranteed to satisfy
`0 ≤ overlap < chunkSize`. -/
theorem overlap_input_constraints (st : DialogState) (s : String)
    (h : parseIntJs s = none) :
    overlapInputMin = 0 ∧
    overlapInputMax st = st.chunkSize - 1 ∧
    (applyDialogEvent st (.editOverlap s)).chunkOverlap = 0 ∧
    (∀ t : String, (applyDialogEvent st (.editOverlap t)).chunkOverlap
      = chunkOverlapOnInput t) := by
  refine ⟨rfl, rfl, ?_, fun t => rfl⟩
  simp [applyDialogEvent, chunkOverlapOnInput, jsOrDefault, h]

/-- Witness for the amended C8: the initial dialog state and the input
`abc`. -/
theorem overlap_input_constraints_witness :
    overlapInputMin = 0 ∧
    overlapInputMax initialDialogState = initialDialogState.chunkSize - 1 ∧
    (applyDialogEvent initialDialogState (.editOverlap "abc")).chunkOverlap = 0 ∧
    (∀ t : String,
      (applyDialogEvent initialDialogState (.editOverlap t)).chunkOverlap
        = chunkOverlapOnInput t) :=
  overlap_input_constraints initialDialogState "abc" (by decide)

/-- Claim C10: the update `handleSave` submits contains `chunk_size`,
`chunk_overlap` or `top_k_results` exactly when the dialog value differs
from the loaded setting, carries the differing value when present, and
contains an API-key field exactly when that input is non-empty after
trimming; consequently saving with no edits submits the empty update. -/
theorem save_sends_only_diffs (settings : AppSettingsM) (st : DialogState) :
    ((buildUpdate settings st).chunk_size = none ↔
      st.chunkSize = settings.chunk_size) ∧
    ((buildUpdate settings st).chunk_overlap = none ↔
      st.chunkOverlap = settings.chunk_overlap) ∧
    ((buildUpdate settings st).top_k_results = none ↔
      st.topK = settings.top_k_results) ∧
    ((buildUpdate settings st).openrouter_api_key = none ↔
      jsTrim st.openrouterKey = "") ∧
    ((buildUpdate settings st).google_api_key = none ↔
      jsTrim st.googleKey = "") ∧
    (st.chunkSize ≠ settings.chunk_size →
      (buildUpdate settings st).chunk_size = some st.chunkSize) ∧
    (st.chunkOverlap ≠ settings.chunk_overlap →
      (buildUpdate settings st).chunk_overlap = some st.chunkOverlap) ∧
    (st.topK ≠ settings.top_k_results →
      (buildUpdate settings st).top_k_results = some st.topK) ∧
    buildUpdate settings (stateFromSettings settings) = emptyUpdate := by
  refine ⟨?_, ?_, ?_, ?_, ?_, ?_, ?_, ?_, ?_⟩
  · rw [buildUpdate]
    split <;> simp_all
  · rw [buildUpdate]
    split <;> simp_all
  · rw [buildUpdate]
    split <;> simp_all
  · rw [buildUpdate]
    split <;> simp_all
  · rw [buildUpdate]
    split <;> simp_all
  · intro h
    rw [buildUpdate]
    simp [h]
  · intro h
    rw [buildUpdate]
    simp [h]
  · intro h
    rw [buildUpdate]
    simp [h]
  · rw [buildUpdate, stateFromSettings, emptyUpdate]
    simp
    decide

/-- Witness for C10: the default settings loaded into an unedited
dialog. -/
theorem save_sends_only_diffs_witness :
    ((buildUpdate ⟨512, 50, 5⟩ (stateFromSettings ⟨512, 50, 5⟩)).chunk_size = none ↔
      (stateFromSettings ⟨512, 50, 5⟩).chunkSize = (512 : Int)) ∧
    ((buildUpdate ⟨512, 50, 5⟩ (stateFromSettings ⟨512, 50, 5⟩)).chunk_overlap = none ↔
      (stateFromSettings ⟨512, 50, 5⟩).chunkOverlap = (50 : Int)) ∧
    ((buildUpdate ⟨512, 50, 5⟩ (stateFromSettings ⟨512, 50, 5⟩)).top_k_results = none ↔
      (stateFromSettings ⟨512, 50, 5⟩).topK = (5 : Int)) ∧
    ((buildUpdate ⟨512, 50, 5⟩ (stateFromSettings ⟨512, 50, 5⟩)).openrouter_api_key = none ↔
      jsTrim (stateFromSettings ⟨512, 50, 5⟩).openrouterKey = "") ∧
    ((buildUpdate ⟨512, 50, 5⟩ (stateFromSettings ⟨512, 50, 5⟩)).google_api_key = none ↔
      jsTrim (stateFromSettings ⟨512, 50, 5⟩).googleKey = "") ∧
    ((stateFromSettings ⟨512, 50, 5⟩).chunkSize ≠ (512 : Int) →
      (buildUpdate ⟨512, 50, 5⟩ (stateFromSettings ⟨512, 50, 5⟩)).chunk_size
        = some (stateFromSettings ⟨512, 50, 5⟩).chunkSize) ∧
    ((stateFromSettings ⟨512, 50, 5⟩).chunkOverlap ≠ (50 : Int) →
      (buildUpdate ⟨512, 50, 5⟩ (stateFromSettings ⟨512, 50, 5⟩)).chunk_overlap
        = some (stateFromSettings ⟨512, 50, 5⟩).chunkOverlap) ∧
    ((stateFromSettings ⟨512, 50, 5⟩).topK ≠ (5 : Int) →
      (buildUpdate ⟨512, 50, 5⟩ (stateFromSettings ⟨512, 50, 5⟩)).top_k_results
        = some (stateFromSettings ⟨512, 50, 5⟩).topK) ∧
    buildUpdate ⟨512, 50, 5⟩ (stateFromSettings ⟨512, 50, 5⟩) = emptyUpdate :=
  save_sends_only_diffs ⟨512, 50, 5⟩ (stateFromSettings ⟨512, 50, 5⟩)

section LoggerLemmas

/-- Keeping the last `n` elements never yields more than `n` elements. -/
theorem lastN_length_le (n : Nat) (l : List LogEntryM) :
    (lastN n l).length ≤ n := by
  rw [lastN]
  simp only [List.length_drop]
  omega

/-- Keeping the last `n` of a list whose length is at most `n` keeps it
whole. -/
theorem lastN_of_le (n : Nat) (l : List LogEntryM) (h : l.length ≤ n) :
    lastN n l = l := by
  rw [lastN, Nat.sub_eq_zero_of_le h, List.drop_zero]

/-- Keeping the last `n` elements commutes with first restricting the left
part of an append to its last `n` elements. -/
theorem lastN_append_left (n : Nat) (l r : List LogEntryM) :
    lastN n (lastN n l ++ r) = lastN n (l ++ r) := by
  rcases le_or_lt l.length n with h | h
  · rw [lastN_of_le n l h]
  · rw [lastN, lastN, lastN, List.drop_append_eq_append_drop,
      List.drop_append_eq_append_drop, List.drop_drop]
    simp only [List.length_append, List.length_drop]
    congr 2 <;> omega

/-- The retention step equals keeping the last `maxLocalLogs` entries, for
lists at most one over the bound. -/
theorem evictOld_eq_lastN (l : List LogEntryM)
    (h : l.length ≤ maxLocalLogs + 1) :
    evictOld l = lastN maxLocalLogs l := by
  rw [evictOld, lastN]
  split
  next hcond =>
    have h1 : l.length - maxLocalLogs = 1 := by omega
    rw [h1]
  next hcond =>
    rw [(by omega : l.length - maxLocalLogs = 0), List.drop_zero]

/-- Running the logger keeps the minimum level and leaves in the buffer
exactly the last `maxLocalLogs` of the previous buffer followed by the
inserted entries. -/
theorem runLogger_logs (calls : List (LogLevel × String)) :
    ∀ st : LoggerState, st.logs.length ≤ maxLocalLogs →
      (runLogger st calls).minLevel = st.minLevel ∧
      (runLogger st calls).logs
        = lastN maxLocalLogs (st.logs ++ insertedEntries st.minLevel calls) := by
  induction calls with
  | nil =>
    intro st h
    refine ⟨rfl, ?_⟩
    rw [runLogger, List.foldl_nil, insertedEntries, List.filterMap_nil,
      List.append_nil, lastN_of_le _ _ h]
  | cons c rest ih =>
    intro st h
    have hrun : runLogger st (c :: rest) = runLogger (logStep st c.1 c.2) rest := rfl
    by_cases hl : shouldLog st.minLevel c.1 = true
    · have hstep : logStep st c.1 c.2
          = ⟨st.minLevel, evictOld (st.logs ++ [⟨c.1, c.2⟩])⟩ := by
        rw [logStep, if_pos hl]
      have hlen1 : (st.logs ++ [⟨c.1, c.2⟩] : List LogEntryM).length
          ≤ maxLocalLogs + 1 := by
        simp only [List.length_append, List.length_singleton]
        omega
      have hlen2 : (evictOld (st.logs ++ [⟨c.1, c.2⟩])).length ≤ maxLocalLogs := by
        rw [evictOld_eq_lastN _ hlen1]
        exact lastN_length_le _ _
      obtain ⟨hml, hlogs⟩ := ih (logStep st c.1 c.2) (by rw [hstep]; exact hlen2)
      rw [hstep] at hml hlogs
      refine ⟨by rw [hrun, hstep]; exact hml, ?_⟩
      rw [hrun, hstep, hlogs, evictOld_eq_lastN _ hlen1, lastN_append_left,
        List.append_assoc]
      have hins : insertedEntries st.minLevel (c :: rest)
          = ⟨c.1, c.2⟩ :: insertedEntries st.minLevel rest := by
        rw [insertedEntries, List.filterMap_cons, if_pos hl]
        rfl
      rw [hins]
      rfl
    · have hstep : logStep st c.1 c.2 = st := by
        rw [logStep, if_neg hl]
      obtain ⟨hml, hlogs⟩ := ih st h
      have hins : insertedEntries st.minLevel (c :: rest)
          = insertedEntries st.minLevel rest := by
        rw [insertedEntries, List.filterMap_cons, if_neg hl]
        rfl
      exact ⟨by rw [hrun, hstep]; exact hml,
        by rw [hrun, hstep, hins]; exact hlogs⟩

end LoggerLemmas

/-- Claim C9: starting from any logger state within the bound (in
particular the initial logger), after any sequence of
`debug`/`info`/`warn`/`error` calls the local `logs` array holds at most
`maxLocalLogs` (1000) entries, and it consists of exactly the most recent
retained entries in insertion order; moreover when the buffer is full,
one further stored call evicts exactly the oldest entry. -/
theorem logger_buffer_bound (st : LoggerState) (calls : List (LogLevel × String))
    (h : st.logs.length ≤ maxLocalLogs) :
    (runLogger st calls).logs.length ≤ maxLocalLogs ∧
    (runLogger st calls).logs
      = lastN maxLocalLogs (st.logs ++ insertedEntries st.minLevel calls) ∧
    (∀ lvl msg, st.logs.length = maxLocalLogs → shouldLog st.minLevel lvl = true →
      (logStep st lvl msg).logs = st.logs.drop 1 ++ [⟨lvl, msg⟩]) := by
  obtain ⟨_, hlogs⟩ := runLogger_logs calls st h
  refine ⟨by rw [hlogs]; exact lastN_length_le _ _, hlogs, ?_⟩
  intro lvl msg hfull hl
  rw [logStep, if_pos hl]
  show evictOld (st.logs ++ [⟨lvl, msg⟩]) = st.logs.drop 1 ++ [⟨lvl, msg⟩]
  rw [evictOld]
  rw [if_pos (by simp only [List.length_append, List.length_singleton]; omega)]
  rw [List.drop_append_eq_append_drop]
  have hm : maxLocalLogs = 1000 := rfl
  rw [(by omega : 1 - st.logs.length = 0), List.drop_zero]

/-- Witness for C9: the initial logger receiving an info call (stored) and
a debug call (filtered out by the minimum level). -/
theorem logger_buffer_bound_witness :
    (runLogger loggerInit [(.info, "a"), (.debug, "b")]).logs.length
      ≤ maxLocalLogs ∧
    (runLogger loggerInit [(.info, "a"), (.debug, "b")]).logs
      = lastN maxLocalLogs (loggerInit.logs
          ++ insertedEntries loggerInit.minLevel [(.info, "a"), (.debug, "b")]) ∧
    (∀ lvl msg, loggerInit.logs.length = maxLocalLogs →
      shouldLog loggerInit.minLevel lvl = true →
      (logStep loggerInit lvl msg).logs = loggerInit.logs.drop 1 ++ [⟨lvl, msg⟩]) :=
  logger_buffer_bound loggerInit [(.info, "a"), (.debug, "b")] (by decide)

end LocalRag
